import Mathlib

/-!
Verification development for the In-House-GIS parcel sync scripts
("Shapefile Uploads/"): a shallow embedding of the fetch → transform →
dedupe → upsert pipeline shared by `sync_parcels_from_utah_api.py`,
`sync_parcels_from_utah_lir_api.py`, `update_parcels_with_lir.py`,
`update_parcels_with_lir_fast.py` and `update_parcels_with_lir_ultra_fast.py`,
together with proofs about the coercion helpers, geometry normalization,
batch dedup, the partial-failure fallbacks, the pre-run clear, the
destination-state semantics of the upload loops, and the pagination loop.

Python dynamic values are embedded as the inductive `Val`; dicts as
association lists; exceptions as `Except PyErr`; network collaborators
(the ArcGIS source and the Supabase row store) as explicit environments
recording each call's outcome.
-/

namespace GIS

/-- GeoJSON polygon coordinates: a list of rings, each a list of points.
Coordinates are embedded as exact rationals. -/
abbrev PolyCoords := List (List (ℚ × ℚ))

/-- A GeoJSON geometry payload as seen by the transform functions:
absent (`None`), a `Polygon`, a `MultiPolygon`, or any other geometry
type (identified by its `type` string, payload kept opaque since the
scripts never inspect it). -/
inductive Geometry where
  | gnone
  | polygon (coords : PolyCoords)
  | multiPolygon (coords : List PolyCoords)
  | other (ty : String) (payload : String)
deriving DecidableEq

/-- A dynamic Python value, covering everything the scripts store in
feature attributes and destination records. Floats are embedded as exact
rationals. -/
inductive Val where
  | vnone
  | vstr (s : String)
  | vint (n : ℤ)
  | vrat (q : ℚ)
  | vbool (b : Bool)
  | vgeom (g : Geometry)
deriving DecidableEq

/-- A Python dict with string keys: the shape of feature properties,
feature attributes and destination records in all of the scripts. -/
abbrev RecD := List (String × Val)

/-- `dict.get(k)` returning `Option`: first binding of `k`, if any. -/
def lookupOpt : RecD → String → Option Val
  | [], _ => none
  | (k', v) :: rest, k => if k' = k then some v else lookupOpt rest k

/-- `dict.get(k)`: the bound value, or `None` when the key is absent. -/
def lookupVal (r : RecD) (k : String) : Val :=
  (lookupOpt r k).getD .vnone

/-- `k in dict`. -/
def hasKey (r : RecD) (k : String) : Bool :=
  (lookupOpt r k).isSome

/-- `dict.pop(k)`: the bound value together with the dict without `k`,
or `none` when the key is absent (Python raises `KeyError` there). -/
def popKey (r : RecD) (k : String) : Option (Val × RecD) :=
  match lookupOpt r k with
  | none => none
  | some v => some (v, r.filter (fun kv => kv.1 != k))

/-- Python truthiness on the embedded values (`if value:`). Geometry
objects stored in a record are always non-`None` dicts, hence truthy. -/
def truthy : Val → Bool
  | .vnone => false
  | .vstr s => decide (s ≠ "")
  | .vint n => decide (n ≠ 0)
  | .vrat q => decide (q ≠ 0)
  | .vbool b => b
  | .vgeom _ => true

/-- Python `a or b`: `a` if truthy, else `b`. -/
def pyOr (a b : Val) : Val := if truthy a then a else b

/-- The two exception classes caught by the `safe_*` helpers
(`except (ValueError, TypeError)`). -/
inductive PyErr where
  | valueError
  | typeError
deriving DecidableEq

/-- Decimal digit rendering, fuel-driven so it reduces structurally. -/
def natStrCharsFuel : ℕ → ℕ → List Char
  | 0, _ => []
  | fuel + 1, n =>
      if n < 10 then [Nat.digitChar n]
      else natStrCharsFuel fuel (n / 10) ++ [Nat.digitChar (n % 10)]

/-- Decimal rendering of a natural number. -/
def natStr (n : ℕ) : String := ⟨natStrCharsFuel (n + 1) n⟩

/-- Decimal rendering of an integer, Python `str(int)` style. -/
def intStr (n : ℤ) : String :=
  if n < 0 then "-" ++ natStr n.natAbs else natStr n.natAbs

/-- Rendering of an embedded float; exact rational rendering stands in
for Python's decimal float repr. -/
def ratStr (q : ℚ) : String :=
  if q.den = 1 then intStr q.num else intStr q.num ++ "/" ++ natStr q.den

/-- Python `str(value)` on the embedded values. -/
def pyStrRender : Val → String
  | .vnone => "None"
  | .vstr s => s
  | .vint n => intStr n
  | .vrat q => ratStr q
  | .vbool b => if b then "True" else "False"
  | .vgeom _ => "<geometry>"

/-- All characters are decimal digits. -/
def allDigits (cs : List Char) : Bool := cs.all Char.isDigit

/-- Value of a digit string (most significant first). -/
def natOfDigits (cs : List Char) : ℕ :=
  cs.foldl (fun a c => a * 10 + (c.toNat - 48)) 0

/-- Split a character list at its unique dot, rejecting strings with two
or more dots. -/
def splitDot : List Char → Option (List Char × Option (List Char))
  | [] => some ([], none)
  | '.' :: t => if t.contains '.' then none else some ([], some t)
  | c :: t =>
      match splitDot t with
      | some (i, f) => some (c :: i, f)
      | none => none

/-- The decimal-number strings accepted by CPython's `float(str)` in the
plain (sign, digits, optional fraction) form, with their exact value;
`none` for strings `float` rejects. The exponent/`inf`/`nan` forms the
scripts never receive are not modelled. -/
def parseDecimal (s : String) : Option ℚ :=
  let cs := s.toList
  let neg : Bool := decide (cs.head? = some '-')
  let body := match cs with
    | '-' :: t => t
    | '+' :: t => t
    | t => t
  match splitDot body with
  | none => none
  | some (ip, none) =>
      if ip ≠ [] ∧ allDigits ip then
        some (mkRat (if neg then -(natOfDigits ip : ℤ) else (natOfDigits ip : ℤ)) 1)
      else none
  | some (ip, some fp) =>
      if (ip ≠ [] ∨ fp ≠ []) ∧ allDigits ip ∧ allDigits fp then
        let n : ℕ := natOfDigits ip * 10 ^ fp.length + natOfDigits fp
        some (mkRat (if neg then -(n : ℤ) else (n : ℤ)) (10 ^ fp.length))
      else none

/-- The integer strings accepted by CPython's `int(str)` in the plain
(sign, digits) form, with their value. -/
def parseIntStr (s : String) : Option ℤ :=
  let cs := s.toList
  let body := match cs with
    | '-' :: t => t
    | '+' :: t => t
    | t => t
  if body ≠ [] ∧ allDigits body then
    some (if cs.head? = some '-' then -(natOfDigits body : ℤ) else (natOfDigits body : ℤ))
  else none

/-- Python's `float(value)` builtin on the embedded values: `ValueError`
on an unparsable string, `TypeError` on `None` and geometry objects. -/
def pyFloat : Val → Except PyErr ℚ
  | .vnone => .error .typeError
  | .vstr s =>
      match parseDecimal s with
      | some q => .ok q
      | none => .error .valueError
  | .vint n => .ok n
  | .vrat q => .ok q
  | .vbool b => .ok (if b then 1 else 0)
  | .vgeom _ => .error .typeError

/-- Python's `int(value)` builtin: `ValueError` on a non-integer string,
truncation toward zero on a float, `TypeError` on `None` and geometry
objects. -/
def pyInt : Val → Except PyErr ℤ
  | .vnone => .error .typeError
  | .vstr s =>
      match parseIntStr s with
      | some n => .ok n
      | none => .error .valueError
  | .vint n => .ok n
  | .vrat q => .ok (Int.tdiv q.num q.den)
  | .vbool b => .ok (if b then 1 else 0)
  | .vgeom _ => .error .typeError

/-- `safe_float` with its exception behaviour explicit: `None` and `''`
map to `None`; otherwise `float(value)` is attempted and `ValueError` /
`TypeError` are caught, yielding `None`. (`sync_parcels_from_utah_lir_api.py`
lines 82-89, duplicated in both `update_parcels_with_lir*.py` files.) -/
def safe_floatE (v : Val) : Except PyErr (Option ℚ) :=
  if v = .vnone ∨ v = .vstr "" then .ok none
  else
    match pyFloat v with
    | .ok q => .ok (some q)
    | .error .valueError => .ok none
    | .error .typeError => .ok none

/-- `safe_float` as the total function it provably is. -/
def safe_float (v : Val) : Option ℚ :=
  match safe_floatE v with
  | .ok o => o
  | .error _ => none

/-- `safe_int` with its exception behaviour explicit
(`sync_parcels_from_utah_lir_api.py` lines 91-98). -/
def safe_intE (v : Val) : Except PyErr (Option ℤ) :=
  if v = .vnone ∨ v = .vstr "" then .ok none
  else
    match pyInt v with
    | .ok n => .ok (some n)
    | .error .valueError => .ok none
    | .error .typeError => .ok none

/-- `safe_int` as the total function it provably is. -/
def safe_int (v : Val) : Option ℤ :=
  match safe_intE v with
  | .ok o => o
  | .error _ => none

/-- `safe_str`: `None` and `''` map to `None`, anything else to
`str(value)`. -/
def safe_str (v : Val) : Option String :=
  if v = .vnone ∨ v = .vstr "" then none else some (pyStrRender v)

/-- An `Option String` back into a record value. -/
def optStr : Option String → Val
  | none => .vnone
  | some s => .vstr s

/-- An `Option ℚ` back into a record value. -/
def optRat : Option ℚ → Val
  | none => .vnone
  | some q => .vrat q

/-- An `Option ℤ` back into a record value. -/
def optInt : Option ℤ → Val
  | none => .vnone
  | some n => .vint n

/-- A GeoJSON feature as fetched with `f=geojson`: a `properties` dict
and an optional `geometry`. -/
structure Feature where
  properties : RecD
  geometry : Geometry
deriving DecidableEq

/-- A feature as fetched with `f=json` by the update scripts: an
`attributes` dict (geometry is not requested there). -/
structure AttrFeature where
  attributes : RecD
deriving DecidableEq

/-- `props.get(name)`. -/
def getProp (f : Feature) (k : String) : Val := lookupVal f.properties k

/-- `attrs.get(name)`. -/
def getAttr (f : AttrFeature) (k : String) : Val := lookupVal f.attributes k

/-- The Polygon-to-MultiPolygon conversion at the top of both
`transform_parcel_to_supabase` functions: a `Polygon` is wrapped into a
`MultiPolygon` whose coordinate list is `[geom['coordinates']]`; `None`
and every other geometry type fall through unchanged. -/
def normalizeGeom : Geometry → Geometry
  | .polygon c => .multiPolygon [c]
  | g => g

/-- A geometry as stored in the `'geom'` record field: `None` when
absent, the geometry object otherwise. -/
def geomVal : Geometry → Val
  | .gnone => .vnone
  | g => .vgeom g

/-- `', '.join(parts)` over the truthy mail-address lines, `None` when
no line is truthy; joining a non-string raises `TypeError`, which
`transform_parcel_to_supabase` does not catch. -/
def joinComma (parts : List Val) : Except PyErr Val :=
  if parts = [] then .ok .vnone
  else
    match parts.mapM (fun v => match v with
      | .vstr s => Except.ok s
      | _ => Except.error PyErr.typeError) with
    | .ok ss => .ok (.vstr (String.intercalate ", " ss))
    | .error e => .error e

/-- The `size_acres` expression of `sync_parcels_from_utah_api.py` line
125: `float(props.get('ParcelAcreage') or 0) if props.get('ParcelAcreage')
else None`; the uncaught `float` call can raise. -/
def sizeAcresOf (f : Feature) : Except PyErr Val :=
  if truthy (getProp f "ParcelAcreage") then
    match pyFloat (pyOr (getProp f "ParcelAcreage") (.vint 0)) with
    | .ok q => .ok (.vrat q)
    | .error e => .error e
  else .ok .vnone

/-- `transform_parcel_to_supabase` of `sync_parcels_from_utah_api.py`
(lines 79-131): Davis County GIS Portal feature to destination record.
Exceptions escape to the caller's per-feature `try`. -/
def transform_parcel_to_supabase (f : Feature) : Except PyErr RecD :=
  let geom := normalizeGeom f.geometry
  let full_address :=
    pyOr (pyOr (getProp f "ParcelFullSitusAddress") (getProp f "ParcelSitusSuffix")) .vnone
  let parts := [getProp f "ParcelOwnerMailAddressLine1",
                getProp f "ParcelOwnerMailAddressLine2",
                getProp f "ParcelOwnerMailAddressLine3"].filter truthy
  match joinComma parts with
  | .error e => .error e
  | .ok owner_address =>
    match sizeAcresOf f with
    | .error e => .error e
    | .ok size_acres =>
      .ok [("apn", getProp f "ParcelTaxID"),
           ("address", full_address),
           ("city", getProp f "ParcelSitusCity"),
           ("zip_code", getProp f "ParcelSitusZipcode"),
           ("county", .vstr "Davis"),
           ("owner_name", getProp f "ParcelOwnerName"),
           ("owner_address", owner_address),
           ("owner_city", getProp f "ParcelOwnerMailCity"),
           ("owner_state", getProp f "ParcelOwnerMailState"),
           ("owner_zip", getProp f "ParcelOwnerMailZipcode"),
           ("size_acres", size_acres),
           ("recorder_phone", .vstr "1-801-451-3225"),
           ("property_url", .vstr "https://webportal.daviscountyutah.gov/App/PropertySearch/esri/map"),
           ("geom", geomVal geom)]

/-- `transform_parcel_to_supabase` of `sync_parcels_from_utah_lir_api.py`
(lines 106-179): LIR feature to destination record; every field goes
through a `safe_*` helper, so this transform is total. -/
def transform_parcel_to_supabase_lir (f : Feature) : RecD :=
  let geom := normalizeGeom f.geometry
  let parcel_id := pyOr (pyOr (getProp f "PARCEL_ID") (getProp f "PARCELID")) (getProp f "APN")
  [("apn", parcel_id),
   ("address", optStr (safe_str (getProp f "PARCEL_ADD"))),
   ("city", optStr (safe_str (getProp f "PARCEL_CITY"))),
   ("zip_code", optStr (safe_str (getProp f "PARCEL_ZIP"))),
   ("county", .vstr "Davis"),
   ("owner_type", optStr (safe_str (getProp f "OWN_TYPE"))),
   ("prop_class", optStr (safe_str (getProp f "PROP_CLASS"))),
   ("taxexempt_type", optStr (safe_str (getProp f "TAXEXEMPT_TYPE"))),
   ("primary_res", optStr (safe_str (getProp f "PRIMARY_RES"))),
   ("bldg_sqft", optRat (safe_float (getProp f "BLDG_SQFT"))),
   ("bldg_sqft_info", optStr (safe_str (getProp f "BLDG_SQFT_INFO"))),
   ("floors_cnt", optRat (safe_float (getProp f "FLOORS_CNT"))),
   ("floors_info", optStr (safe_str (getProp f "FLOORS_INFO"))),
   ("built_yr", optInt (safe_int (getProp f "BUILT_YR"))),
   ("effbuilt_yr", optInt (safe_int (getProp f "EFFBUILT_YR"))),
   ("const_material", optStr (safe_str (getProp f "CONST_MATERIAL"))),
   ("total_mkt_value", optRat (safe_float (getProp f "TOTAL_MKT_VALUE"))),
   ("land_mkt_value", optRat (safe_float (getProp f "LAND_MKT_VALUE"))),
   ("parcel_acres", optRat (safe_float (getProp f "PARCEL_ACRES"))),
   ("house_cnt", optStr (safe_str (getProp f "HOUSE_CNT"))),
   ("subdiv_name", optStr (safe_str (getProp f "SUBDIV_NAME"))),
   ("tax_dist", optStr (safe_str (getProp f "TAX_DIST"))),
   ("recorder_phone", .vstr "1-801-451-3225"),
   ("property_url", pyOr (optStr (safe_str (getProp f "CoParcel_URL")))
      (.vstr "https://webportal.daviscountyutah.gov/App/PropertySearch/esri/map")),
   ("geom", geomVal geom)]

/-- The natural-key resolution chain of the LIR update scripts:
`attrs.get('PARCEL_ID') or attrs.get('PARCELID') or attrs.get('APN')`. -/
def resolveLirApn (f : AttrFeature) : Val :=
  pyOr (pyOr (getAttr f "PARCEL_ID") (getAttr f "PARCELID")) (getAttr f "APN")

/-- `extract_lir_fields` of `update_parcels_with_lir.py` (lines 91-134),
duplicated verbatim in `update_parcels_with_lir_fast.py`: `None` when no
candidate field yields a truthy key, else the apn plus the fixed LIR
field set. -/
def extract_lir_fields (f : AttrFeature) : Option RecD :=
  let apn := resolveLirApn f
  if truthy apn = false then none
  else
    some [("apn", optStr (safe_str apn)),
          ("prop_class", optStr (safe_str (getAttr f "PROP_CLASS"))),
          ("taxexempt_type", optStr (safe_str (getAttr f "TAXEXEMPT_TYPE"))),
          ("primary_res", optStr (safe_str (getAttr f "PRIMARY_RES"))),
          ("bldg_sqft", optRat (safe_float (getAttr f "BLDG_SQFT"))),
          ("bldg_sqft_info", optStr (safe_str (getAttr f "BLDG_SQFT_INFO"))),
          ("floors_cnt", optRat (safe_float (getAttr f "FLOORS_CNT"))),
          ("floors_info", optStr (safe_str (getAttr f "FLOORS_INFO"))),
          ("built_yr", optInt (safe_int (getAttr f "BUILT_YR"))),
          ("effbuilt_yr", optInt (safe_int (getAttr f "EFFBUILT_YR"))),
          ("const_material", optStr (safe_str (getAttr f "CONST_MATERIAL"))),
          ("total_mkt_value", optRat (safe_float (getAttr f "TOTAL_MKT_VALUE"))),
          ("land_mkt_value", optRat (safe_float (getAttr f "LAND_MKT_VALUE"))),
          ("parcel_acres", optRat (safe_float (getAttr f "PARCEL_ACRES"))),
          ("house_cnt", optStr (safe_str (getAttr f "HOUSE_CNT"))),
          ("subdiv_name", optStr (safe_str (getAttr f "SUBDIV_NAME"))),
          ("tax_dist", optStr (safe_str (getAttr f "TAX_DIST")))]

/-- `safe_value` of `update_parcels_with_lir_ultra_fast.py` (lines 68-72). -/
def safe_value (v : Val) : Val :=
  if v = .vnone ∨ v = .vstr "" then .vnone else v

/-- `extract_lir_fields` of `update_parcels_with_lir_ultra_fast.py`
(lines 74-100). -/
def extract_lir_fields_ultra (f : AttrFeature) : Option RecD :=
  let apn := resolveLirApn f
  if truthy apn = false then none
  else
    some [("apn", if truthy apn then .vstr (pyStrRender apn) else .vnone),
          ("prop_class", safe_value (getAttr f "PROP_CLASS")),
          ("taxexempt_type", safe_value (getAttr f "TAXEXEMPT_TYPE")),
          ("primary_res", safe_value (getAttr f "PRIMARY_RES")),
          ("bldg_sqft", safe_value (getAttr f "BLDG_SQFT")),
          ("bldg_sqft_info", safe_value (getAttr f "BLDG_SQFT_INFO")),
          ("floors_cnt", safe_value (getAttr f "FLOORS_CNT")),
          ("floors_info", safe_value (getAttr f "FLOORS_INFO")),
          ("built_yr", safe_value (getAttr f "BUILT_YR")),
          ("effbuilt_yr", safe_value (getAttr f "EFFBUILT_YR")),
          ("const_material", safe_value (getAttr f "CONST_MATERIAL")),
          ("total_mkt_value", safe_value (getAttr f "TOTAL_MKT_VALUE")),
          ("land_mkt_value", safe_value (getAttr f "LAND_MKT_VALUE")),
          ("parcel_acres", safe_value (getAttr f "PARCEL_ACRES")),
          ("house_cnt", safe_value (getAttr f "HOUSE_CNT")),
          ("subdiv_name", safe_value (getAttr f "SUBDIV_NAME")),
          ("tax_dist", safe_value (getAttr f "TAX_DIST"))]

/-- The natural key of a destination record: its `'apn'` value. -/
def recKey (r : RecD) : Val := lookupVal r "apn"

/-- The seen-apns dedup loop of `sync_parcels_from_utah_api.py` lines
218-230 on a list of already-transformed records: a record is kept when
its apn is truthy and not yet seen, first occurrence wins. -/
def dedupeGo (seen : List Val) : List RecD → List RecD
  | [] => []
  | r :: rs =>
      if truthy (recKey r) = true ∧ recKey r ∉ seen then
        r :: dedupeGo (recKey r :: seen) rs
      else dedupeGo seen rs

/-- Batch dedup with an initially empty seen set. -/
def dedupeBatch (rs : List RecD) : List RecD := dedupeGo [] rs

/-- The full record-building loop of `sync_parcels_from_utah_api.py`
lines 218-232: transform each feature inside `try` (a raising transform
skips the feature), keep it when its apn is truthy and unseen. -/
def buildGoApi (seen : List Val) : List Feature → List RecD
  | [] => []
  | f :: fs =>
      match transform_parcel_to_supabase f with
      | .error _ => buildGoApi seen fs
      | .ok r =>
          if truthy (recKey r) = true ∧ recKey r ∉ seen then
            r :: buildGoApi (recKey r :: seen) fs
          else buildGoApi seen fs

/-- The records handed to `upload_batch` for one page of the basic API
sync. -/
def buildBatchApi (feats : List Feature) : List RecD := buildGoApi [] feats

/-- The record-building loop of `sync_parcels_from_utah_lir_api.py`
lines 278-285: transform (total here) and keep only records with a
truthy apn; no dedup in this variant. -/
def buildBatchLir (feats : List Feature) : List RecD :=
  feats.filterMap (fun f =>
    let r := transform_parcel_to_supabase_lir f
    if truthy (recKey r) = true then some r else none)

/-- The record-building loop shared by the three `update_parcels_*`
scripts (`if record and record.get('apn'): lir_records.append(record)`),
parametrised by the extract function of the variant. -/
def buildUpdateBatch (extract : AttrFeature → Option RecD) (feats : List AttrFeature) :
    List RecD :=
  feats.filterMap (fun f =>
    match extract f with
    | some r => if truthy (recKey r) = true then some r else none
    | none => none)

/-- Is `pat` a contiguous prefix of `l`? -/
def listPre : List Char → List Char → Bool
  | [], _ => true
  | _ :: _, [] => false
  | a :: as, b :: bs => a == b && listPre as bs

/-- Does `l` contain `pat` as a contiguous sublist? -/
def listSub (pat : List Char) : List Char → Bool
  | [] => pat.isEmpty
  | c :: rest => listPre pat (c :: rest) || listSub pat rest

/-- Python's `pat in s` substring test. -/
def strContains (s pat : String) : Bool := listSub pat.toList s.toList

/-- ASCII lowercase of one character. -/
def charLower (c : Char) : Char :=
  if 'A' ≤ c ∧ c ≤ 'Z' then Char.ofNat (c.toNat + 32) else c

/-- `str.lower()` (ASCII, which covers every message matched on). -/
def strLower (s : String) : String := ⟨s.toList.map charLower⟩

/-- Outcomes of the Supabase calls made by `upload_batch` in
`sync_parcels_from_utah_api.py`: the batch-level upsert either succeeds
or raises with a message (`str(e)`), and each per-record upsert of the
fallback loop either succeeds or raises. -/
structure UploadEnv where
  batchResult : List RecD → Option String
  singleOk : RecD → Bool

/-- `upload_batch` of `sync_parcels_from_utah_api.py` (lines 145-175):
empty batch returns 0; a successful batch upsert returns the batch size;
a failure whose lowercased message contains `'could not find'` or
`'column'` is treated as a schema error and returns 0 with no fallback;
any other failure falls back to one-by-one upserts and returns the
number of records that succeeded individually. -/
def upload_batch (env : UploadEnv) (records : List RecD) : ℕ :=
  if records = [] then 0
  else
    match env.batchResult records with
    | none => records.length
    | some emsg =>
        let m := strLower emsg
        if strContains m "could not find" || strContains m "column" then 0
        else records.countP (fun r => env.singleOk r)

/-- Outcomes of the per-record `insert` calls of `upload_batch` in
`sync_parcels_from_utah_lir_api.py`: `none` is success, `some msg` an
exception with message `str(e)`. -/
structure InsertEnv where
  insertResult : RecD → Option String

/-- `upload_batch` of `sync_parcels_from_utah_lir_api.py` (lines
211-226): inserts records one at a time, counting successes; failed
inserts (duplicate keys included) are skipped. -/
def upload_batch_lir (env : InsertEnv) (records : List RecD) : ℕ :=
  if records = [] then 0
  else records.countP (fun r => (env.insertResult r).isNone)

/-- Outcome of one `update(record).eq('apn', apn)` call: `true` when the
call succeeds and matches at least one row, `false` when it raises or
matches none (both increment `failed_count`). -/
structure UpdateEnv where
  matched : Val → RecD → Bool

/-- A record after the `record.pop('apn')` mutation: unchanged when the
key is absent, the record without its `'apn'` binding otherwise. -/
def stripApn (r : RecD) : RecD :=
  match popKey r "apn" with
  | none => r
  | some (_, r') => r'

/-- The body of the per-record loop of `update_parcel_batch`
(`update_parcels_with_lir.py` lines 147-164), returning the success and
failure counts and the mutated records in order. A missing `'apn'` key
(`pop` raising `KeyError`) counts as a failure. -/
def updLoop (env : UpdateEnv) : List RecD → ℕ × ℕ × List RecD
  | [] => (0, 0, [])
  | r :: rs =>
      let here : ℕ × ℕ × RecD :=
        match popKey r "apn" with
        | none => (0, 1, r)
        | some (apn, r') => if env.matched apn r' then (1, 0, r') else (0, 1, r')
      let rest := updLoop env rs
      (here.1 + rest.1, here.2.1 + rest.2.1, here.2.2 :: rest.2.2)

/-- `update_parcel_batch` of `update_parcels_with_lir.py` (lines
136-166): an empty batch returns the bare integer `0` (modelled as
`Sum.inl 0`), a non-empty batch returns the
`(success_count, failed_count)` pair (`Sum.inr`); the second component
of the result is the mutated record list (each input record had its
`'apn'` key popped). -/
def update_parcel_batch (env : UpdateEnv) (lrs : List RecD) : (ℕ ⊕ ℕ × ℕ) × List RecD :=
  if lrs = [] then (Sum.inl 0, lrs)
  else
    let res := updLoop env lrs
    (Sum.inr (res.1, res.2.1), res.2.2)

/-- Outcomes of the Supabase calls made by `update_parcel_batch_fast`:
the batch upsert either succeeds or raises, and each per-record fallback
`update(record).eq('apn', apn)` call either succeeds or raises. -/
structure FastEnv where
  batchResult : List RecD → Option String
  updOk : Val → RecD → Bool

/-- The one-by-one fallback loop of `update_parcel_batch_fast`
(`update_parcels_with_lir_fast.py` lines 225-234): pop the apn (a
`KeyError` is swallowed by the bare `except`), update, count successes;
returns the count and the mutated records. -/
def fastFallback (env : FastEnv) : List RecD → ℕ × List RecD
  | [] => (0, [])
  | r :: rs =>
      let rest := fastFallback env rs
      match popKey r "apn" with
      | none => (rest.1, r :: rest.2)
      | some (apn, r') =>
          if env.updOk apn r' then (rest.1 + 1, r' :: rest.2)
          else (rest.1, r' :: rest.2)

/-- `update_parcel_batch_fast` of `update_parcels_with_lir_fast.py`
(lines 195-234): empty batch returns 0; a successful batch upsert
returns the batch size with the records untouched; on any batch-level
failure the one-by-one fallback runs. -/
def update_parcel_batch_fast (env : FastEnv) (lrs : List RecD) : ℕ × List RecD :=
  if lrs = [] then (0, lrs)
  else
    match env.batchResult lrs with
    | none => (lrs.length, lrs)
    | some _ => fastFallback env lrs

/-- Outcomes of the destructive-clear RPCs: the result of the
`truncate_parcels` RPC (`none` = success, `some msg` = exception) and of
the row-by-row `delete()` fallback. -/
structure ClearEnv where
  truncateErr : Option String
  deleteErr : Option String

/-- `clear_existing_parcels` of `sync_parcels_from_utah_api.py` (lines
133-143): `TRUNCATE` via RPC, `True` on success; any exception is
reported and yields `False` — there is no delete fallback in this
variant. -/
def clear_existing_parcels (env : ClearEnv) : Bool :=
  env.truncateErr.isNone

/-- Result of the LIR-variant clear: whether it reported success and
whether the slow-path warning was printed. -/
structure ClearOutcome where
  ok : Bool
  warnedSlow : Bool
deriving DecidableEq

/-- `clear_existing_parcels` of `sync_parcels_from_utah_lir_api.py`
(lines 181-209): try `TRUNCATE`; when it fails with a message containing
`'could not find'`, warn about the slow path and fall back to
`delete().neq('id', 0)`; any other truncate error, or a delete error, is
reported as failure. -/
def clear_existing_parcels_lir (env : ClearEnv) : ClearOutcome :=
  match env.truncateErr with
  | none => ⟨true, false⟩
  | some msg =>
      if strContains (strLower msg) "could not find" then
        ⟨env.deleteErr.isNone, true⟩
      else ⟨false, false⟩

/-- The paginated fetch loop shared by all sync/update scripts
(`while offset < total_count: features = fetch(offset, batch_size); if
not features: break; ...; offset += batch_size`), with the ideal ArcGIS
pagination semantics `fetch(offset, n) = src[offset : offset+n]`. The
structural fuel equals `total`, which bounds the iteration count for any
positive batch size. -/
def fetchLoop (src : List α) (batchSize total : ℕ) : ℕ → ℕ → List (List α)
  | 0, _ => []
  | fuel + 1, off =>
      if off < total then
        let page := (src.drop off).take batchSize
        if page.isEmpty then [] else page :: fetchLoop src batchSize total fuel (off + batchSize)
      else []

/-- All pages fetched by one run of the loop. -/
def fetchPages (src : List α) (batchSize total : ℕ) : List (List α) :=
  fetchLoop src batchSize total total 0

/-- `total_count = min(total_count, limit)` under Python's `if limit:`
guard (a limit of 0 is falsy and ignored). -/
def effTotal (count : ℕ) (limit : Option ℕ) : ℕ :=
  match limit with
  | none => count
  | some l => if l = 0 then count else min count l

/-- What one sync run did: whether it aborted after a failed clear, the
pages it fetched, the feature and upload totals it reported, and whether
the slow-clear warning was printed. -/
structure RunLog where
  aborted : Bool
  pages : List (List Feature)
  totalProcessed : ℕ
  totalUploaded : ℕ
  warnedSlow : Bool

/-- Environment of one `sync_parcels` run of
`sync_parcels_from_utah_api.py`: the source's reported count and
content, and the destination-call outcomes. -/
structure ApiSyncEnv where
  count : ℕ
  src : List Feature
  clear : ClearEnv
  upload : UploadEnv

/-- `sync_parcels` of `sync_parcels_from_utah_api.py` (lines 177-248):
clamp the count by the limit, optionally clear (aborting the run when
the clear fails), then fetch pages of 1000, build each batch and upload
it. -/
def sync_parcels (env : ApiSyncEnv) (limit : Option ℕ) (clearFirst : Bool) : RunLog :=
  let total := effTotal env.count limit
  if clearFirst ∧ clear_existing_parcels env.clear = false then
    ⟨true, [], 0, 0, false⟩
  else
    let pages := fetchPages env.src 1000 total
    ⟨false, pages, (pages.map List.length).sum,
      (pages.map (fun p => upload_batch env.upload (buildBatchApi p))).sum, false⟩

/-- Environment of one `sync_parcels` run of
`sync_parcels_from_utah_lir_api.py`. -/
structure LirSyncEnv where
  count : ℕ
  src : List Feature
  clear : ClearEnv
  ins : InsertEnv

/-- `sync_parcels` of `sync_parcels_from_utah_lir_api.py` (lines
228-301): same loop with the LIR transform, per-record inserts, and the
delete-fallback clear. -/
def sync_parcels_lir (env : LirSyncEnv) (limit : Option ℕ) (clearFirst : Bool) : RunLog :=
  let total := effTotal env.count limit
  let co := if clearFirst then clear_existing_parcels_lir env.clear else ⟨true, false⟩
  if clearFirst ∧ co.ok = false then ⟨true, [], 0, 0, co.warnedSlow⟩
  else
    let pages := fetchPages env.src 1000 total
    ⟨false, pages, (pages.map List.length).sum,
      (pages.map (fun p => upload_batch_lir env.ins (buildBatchLir p))).sum, co.warnedSlow⟩

/-- The destination table, keyed by the `'apn'` column value. -/
abbrev Table := Val → Option RecD

/-- Destination effect of one accepted `upsert(record, on_conflict='apn')`:
the row at the record's key is replaced wholesale. -/
def upsertRec (t : Table) (r : RecD) : Table :=
  fun k => if k = recKey r then some r else t k

/-- Destination effect of upserting a record list in order — the state
semantics of the writes of `upload_batch` in
`sync_parcels_from_utah_api.py` when the store accepts them. -/
def upsertList (t : Table) (rs : List RecD) : Table :=
  rs.foldl upsertRec t

/-- Destination effect of one `insert(record)` under a unique `apn`
constraint: a new row when the key is free; a duplicate-key failure
(which `upload_batch` skips) leaves the existing row unchanged. -/
def insertSkipRec (t : Table) (r : RecD) : Table :=
  if (t (recKey r)).isSome then t
  else fun k => if k = recKey r then some r else t k

/-- Destination effect of the per-record insert loop of `upload_batch`
in `sync_parcels_from_utah_lir_api.py`. -/
def insertSkipList (t : Table) (rs : List RecD) : Table :=
  rs.foldl insertSkipRec t

/-- Destination state after all upload batches of one basic-API sync
run over the given pages. -/
def sync_run_state_api (t : Table) (pages : List (List Feature)) : Table :=
  pages.foldl (fun t p => upsertList t (buildBatchApi p)) t

/-- Destination state after all upload batches of one LIR sync run over
the given pages. -/
def sync_run_state_lir (t : Table) (pages : List (List Feature)) : Table :=
  pages.foldl (fun t p => insertSkipList t (buildBatchLir p)) t

/-- The destination columns written by the LIR merge updates: exactly
the keys of an `extract_lir_fields` record after `'apn'` is popped. -/
def lirUpdateCols : List String :=
  ["prop_class", "taxexempt_type", "primary_res", "bldg_sqft", "bldg_sqft_info",
   "floors_cnt", "floors_info", "built_yr", "effbuilt_yr", "const_material",
   "total_mkt_value", "land_mkt_value", "parcel_acres", "house_cnt",
   "subdiv_name", "tax_dist"]

/-- The owner columns of the destination schema, populated by the basic
API sync and absent from every LIR merge patch. -/
def ownerCols : List String :=
  ["owner_name", "owner_address", "owner_city", "owner_state", "owner_zip", "owner_type"]

/-- A destination row as a total column-to-value map. -/
abbrev Row := String → Val

/-- Effect on one matched row of `update(patch).eq('apn', apn)`
(PostgREST `PATCH`): columns named in the patch are overwritten, every
other column keeps its value. -/
def applyPatch (patch : RecD) (row : Row) : Row :=
  fun c =>
    match lookupOpt patch c with
    | some v => v
    | none => row c

/-- A feature with no properties and no geometry. -/
def blankFeature : Feature := ⟨[], .gnone⟩

/-- A feature carrying a bare-polygon geometry. -/
def featPoly : Feature := ⟨[], .polygon [[(0, 0), (1, 0), (1, 1)]]⟩

/-- The record the basic-API transform produces for `featPoly`. -/
def rPoly : RecD :=
  match transform_parcel_to_supabase featPoly with
  | .ok r => r
  | .error _ => []

/- ------------------------------------------------------------------ -/
/- Theorems.                                                           -/
/- ------------------------------------------------------------------ -/

theorem parseDecimal_empty : parseDecimal "" = none := by decide

theorem parseIntStr_empty : parseIntStr "" = none := by decide

/-- C4: for `None`, the empty string, and every numeric string the
parsers accept, `safe_float` and `safe_int` return without raising:
`None` and `''` map to the absent value `None`, a valid numeric string
maps to its parsed number, and no input whatsoever escapes the
`except (ValueError, TypeError)` handler. -/
theorem coercion_safety (v : Val) (s : String) (q : ℚ) (n : ℤ) :
    ((safe_floatE v).isOk = true ∧ (safe_intE v).isOk = true) ∧
    (safe_floatE .vnone = .ok none ∧ safe_floatE (.vstr "") = .ok none ∧
     safe_intE .vnone = .ok none ∧ safe_intE (.vstr "") = .ok none) ∧
    (parseDecimal s = some q → safe_floatE (.vstr s) = .ok (some q)) ∧
    (parseIntStr s = some n → safe_intE (.vstr s) = .ok (some n)) := by
  refine ⟨⟨?_, ?_⟩, ⟨rfl, rfl, rfl, rfl⟩, ?_, ?_⟩
  · unfold safe_floatE
    split
    · rfl
    · cases h : pyFloat v with
      | ok q => rfl
      | error e => cases e <;> rfl
  · unfold safe_intE
    split
    · rfl
    · cases h : pyInt v with
      | ok n => rfl
      | error e => cases e <;> rfl
  · intro h
    have hs : s ≠ "" := by
      intro hs
      rw [hs, parseDecimal_empty] at h
      exact Option.noConfusion h
    unfold safe_floatE
    rw [if_neg (by simp [hs])]
    simp [pyFloat, h]
  · intro h
    have hs : s ≠ "" := by
      intro hs
      rw [hs, parseIntStr_empty] at h
      exact Option.noConfusion h
    unfold safe_intE
    rw [if_neg (by simp [hs])]
    simp [pyInt, h]

/-- Witness for C4 at concrete inputs. -/
theorem coercion_safety_witness :
    safe_floatE (.vstr "12.5") = .ok (some (mkRat 125 10)) ∧
    safe_intE (.vstr "-42") = .ok (some (-42)) :=
  ⟨(coercion_safety (.vstr "12.5") "12.5" (mkRat 125 10) 0).2.2.1 (by decide),
   (coercion_safety (.vstr "-42") "-42" 0 (-42)).2.2.2 (by decide)⟩

/-- C7: both transforms store the normalized geometry in the `'geom'`
column; normalization turns a bare `Polygon` into a `MultiPolygon` whose
coordinate list has exactly one member, the original polygon's
coordinates, and leaves every other geometry (absent geometry included)
unchanged. -/
theorem geometry_normalization (f : Feature) (r : RecD) (c : PolyCoords)
    (h : transform_parcel_to_supabase f = .ok r) :
    lookupVal r "geom" = geomVal (normalizeGeom f.geometry) ∧
    lookupVal (transform_parcel_to_supabase_lir f) "geom" = geomVal (normalizeGeom f.geometry) ∧
    (f.geometry = .polygon c →
      normalizeGeom f.geometry = .multiPolygon [c] ∧
      [c].length = 1 ∧ [c].head? = some c) ∧
    ((∀ c', f.geometry ≠ .polygon c') → normalizeGeom f.geometry = f.geometry) := by
  refine ⟨?_, ?_, ?_, ?_⟩
  · unfold transform_parcel_to_supabase at h
    dsimp only at h
    split at h
    · exact Except.noConfusion h
    · split at h
      · exact Except.noConfusion h
      · have hr := Except.ok.inj h
        rw [← hr]
        rfl
  · rfl
  · intro hc
    rw [hc]
    exact ⟨rfl, rfl, rfl⟩
  · intro h'
    cases hg : f.geometry with
    | polygon c' => exact absurd hg (h' c')
    | gnone => rfl
    | multiPolygon c' => rfl
    | other ty p => rfl

/-- Witness for C7: the polygon feature `featPoly`. -/
theorem geometry_normalization_witness :
    lookupVal rPoly "geom" = geomVal (normalizeGeom featPoly.geometry) ∧
    normalizeGeom featPoly.geometry = .multiPolygon [[[(0, 0), (1, 0), (1, 1)]]] :=
  ⟨(geometry_normalization featPoly rPoly [[(0, 0), (1, 0), (1, 1)]] rfl).1,
   ((geometry_normalization featPoly rPoly [[(0, 0), (1, 0), (1, 1)]] rfl).2.2.1 rfl).1⟩

theorem dedupeGo_sublist (seen : List Val) (rs : List RecD) :
    (dedupeGo seen rs).Sublist rs := by
  induction rs generalizing seen with
  | nil => exact List.Sublist.refl _
  | cons r rs ih =>
      rw [dedupeGo]
      split
      · exact List.Sublist.cons₂ _ (ih _)
      · exact List.Sublist.cons _ (ih _)

theorem dedupeGo_nodup (seen : List Val) (rs : List RecD) :
    ((dedupeGo seen rs).map recKey).Nodup ∧
    ∀ r ∈ dedupeGo seen rs, truthy (recKey r) = true ∧ recKey r ∉ seen := by
  induction rs generalizing seen with
  | nil => exact ⟨List.nodup_nil, by simp [dedupeGo]⟩
  | cons r rs ih =>
      rw [dedupeGo]
      split
      case isTrue hcond =>
        obtain ⟨hn, hmem⟩ := ih (recKey r :: seen)
        refine ⟨?_, ?_⟩
        · rw [List.map_cons, List.nodup_cons]
          refine ⟨?_, hn⟩
          intro hcontra
          obtain ⟨x, hx, hkx⟩ := List.mem_map.mp hcontra
          exact (hmem x hx).2 (by rw [hkx]; exact List.mem_cons_self _ _)
        · intro x hx
          rcases List.mem_cons.mp hx with hx | hx
          · rw [hx]
            exact ⟨hcond.1, hcond.2⟩
          · exact ⟨(hmem x hx).1, fun hs => (hmem x hx).2 (List.mem_cons_of_mem _ hs)⟩
      case isFalse hcond =>
        exact ih seen

theorem dedupeGo_keeps_first (seen : List Val) (rs : List RecD) (k : Val) (r : RecD)
    (hk : truthy k = true) (hs : k ∉ seen)
    (hf : rs.find? (fun x => decide (recKey x = k)) = some r) :
    r ∈ dedupeGo seen rs := by
  induction rs generalizing seen with
  | nil => simp [List.find?] at hf
  | cons x xs ih =>
      by_cases hx : recKey x = k
      · have hr : r = x := by
          simp [List.find?, hx] at hf
          exact hf.symm
        subst hr
        rw [dedupeGo, if_pos ⟨by rw [hx]; exact hk, by rw [hx]; exact hs⟩]
        exact List.mem_cons_self _ _
      · have hf' : xs.find? (fun y => decide (recKey y = k)) = some r := by
          simp only [List.find?, decide_eq_false hx] at hf
          exact hf
        rw [dedupeGo]
        split
        next hcond =>
          refine List.mem_cons_of_mem _ (ih (recKey x :: seen) ?_ hf')
          intro hmem
          rcases List.mem_cons.mp hmem with h1 | h1
          · exact hx h1.symm
          · exact hs h1
        next hcond => exact ih seen hs hf'

theorem buildGoApi_eq (seen : List Val) (feats : List Feature) :
    buildGoApi seen feats =
      dedupeGo seen (feats.filterMap fun f => (transform_parcel_to_supabase f).toOption) := by
  induction feats generalizing seen with
  | nil => rfl
  | cons f fs ih =>
      cases h : transform_parcel_to_supabase f with
      | error e => simp [buildGoApi, List.filterMap_cons, h, Except.toOption, ih]
      | ok r => simp [buildGoApi, List.filterMap_cons, h, Except.toOption, ih, dedupeGo]

/-- C8: batch dedup keeps exactly the first transformed record of each
truthy natural key, the output is a sublist of the input (hence no
longer), output keys are pairwise distinct, and the record loop of
`sync_parcels` is exactly this dedup applied to the successfully
transformed records of the page. -/
theorem dedupe_first_occurrence (rs : List RecD) (feats : List Feature) (k : Val) (r : RecD) :
    (dedupeBatch rs).Sublist rs ∧
    (dedupeBatch rs).length ≤ rs.length ∧
    ((dedupeBatch rs).map recKey).Nodup ∧
    (∀ x ∈ dedupeBatch rs, truthy (recKey x) = true) ∧
    buildBatchApi feats =
      dedupeBatch (feats.filterMap fun f => (transform_parcel_to_supabase f).toOption) ∧
    (truthy k = true → rs.find? (fun x => decide (recKey x = k)) = some r →
      r ∈ dedupeBatch rs ∧ ∀ x ∈ dedupeBatch rs, recKey x = k → x = r) := by
  refine ⟨dedupeGo_sublist [] rs, (dedupeGo_sublist [] rs).length_le, (dedupeGo_nodup [] rs).1,
    fun x hx => ((dedupeGo_nodup [] rs).2 x hx).1, buildGoApi_eq [] feats, ?_⟩
  intro hk hf
  have hr : r ∈ dedupeBatch rs := dedupeGo_keeps_first [] rs k r hk (by simp) hf
  refine ⟨hr, ?_⟩
  intro x hx hkx
  have hkr : recKey r = k := by simpa using List.find?_some hf
  exact List.inj_on_of_nodup_map (dedupeGo_nodup [] rs).1 hx hr (by rw [hkx, hkr])

/-- A page with the same apn twice (and a record with each key shape). -/
def dupPage : List RecD :=
  [[("apn", .vstr "11-222"), ("city", .vstr "Layton")],
   [("apn", .vstr "11-222"), ("city", .vstr "Kaysville")],
   [("apn", .vstr "33-444"), ("city", .vstr "Farmington")]]

/-- Witness for C8: on `dupPage` the first `11-222` record is kept and
the second dropped. -/
theorem dedupe_first_occurrence_witness :
    [("apn", Val.vstr "11-222"), ("city", Val.vstr "Layton")] ∈ dedupeBatch dupPage ∧
    (dedupeBatch dupPage).length ≤ dupPage.length :=
  ⟨((dedupe_first_occurrence dupPage [] (.vstr "11-222")
      [("apn", Val.vstr "11-222"), ("city", Val.vstr "Layton")]).2.2.2.2.2
      (by decide) (by decide)).1,
   (dedupe_first_occurrence dupPage [] (.vstr "11-222") []).2.1⟩

theorem buildBatchLir_truthy (feats : List Feature) (r : RecD)
    (h : r ∈ buildBatchLir feats) : truthy (recKey r) = true := by
  simp only [buildBatchLir, List.mem_filterMap] at h
  obtain ⟨f, hf, hr⟩ := h
  split at hr
  next ht => rw [← Option.some.inj hr]; exact ht
  next => exact Option.noConfusion hr

theorem buildUpdateBatch_truthy (ex : AttrFeature → Option RecD) (afeats : List AttrFeature)
    (r : RecD) (h : r ∈ buildUpdateBatch ex afeats) : truthy (recKey r) = true := by
  simp only [buildUpdateBatch, List.mem_filterMap] at h
  obtain ⟨f, hf, hr⟩ := h
  split at hr
  next p heq =>
    split at hr
    next ht => rw [← Option.some.inj hr]; exact ht
    next => exact Option.noConfusion hr
  next => exact Option.noConfusion hr

/-- C9: a feature whose natural key cannot be resolved is skipped by the
extract step, and in each of the five sync/update variants every record
handed to the destination store has a truthy (present, non-empty) apn. -/
theorem natural_key_invariant (f : AttrFeature) (feats : List Feature)
    (afeats : List AttrFeature) (ex : AttrFeature → Option RecD) (r : RecD) :
    (truthy (resolveLirApn f) = false →
      extract_lir_fields f = none ∧ extract_lir_fields_ultra f = none) ∧
    (r ∈ buildBatchApi feats → truthy (recKey r) = true) ∧
    (r ∈ buildBatchLir feats → truthy (recKey r) = true) ∧
    (r ∈ buildUpdateBatch ex afeats → truthy (recKey r) = true) := by
  refine ⟨?_, ?_, fun h => buildBatchLir_truthy feats r h,
    fun h => buildUpdateBatch_truthy ex afeats r h⟩
  · intro h
    constructor
    · simp [extract_lir_fields, h]
    · simp [extract_lir_fields_ultra, h]
  · intro h
    rw [show buildBatchApi feats = buildGoApi [] feats from rfl, buildGoApi_eq] at h
    exact ((dedupeGo_nodup [] _).2 r h).1

/-- A feature with no attributes at all. -/
def afBlank : AttrFeature := ⟨[]⟩

/-- A feature resolving its key from `PARCEL_ID`. -/
def afOne : AttrFeature := ⟨[("PARCEL_ID", .vstr "07-123")]⟩

/-- The LIR-update record extracted from `afOne`. -/
def recOne : RecD := (extract_lir_fields afOne).getD []

/-- A GeoJSON feature with a `ParcelTaxID`. -/
def featOne : Feature := ⟨[("ParcelTaxID", .vstr "t1")], .gnone⟩

/-- The basic-API record transformed from `featOne`. -/
def recApi : RecD :=
  match transform_parcel_to_supabase featOne with
  | .ok r => r
  | .error _ => []

/-- Witness for C9 at concrete features. -/
theorem natural_key_invariant_witness :
    (extract_lir_fields afBlank = none ∧ extract_lir_fields_ultra afBlank = none) ∧
    truthy (recKey recApi) = true ∧ truthy (recKey recOne) = true :=
  ⟨(natural_key_invariant afBlank [] [] (fun _ => none) []).1 (by decide),
   (natural_key_invariant afBlank [featOne] [] (fun _ => none) recApi).2.1 (by decide),
   (natural_key_invariant afBlank [] [afOne] extract_lir_fields recOne).2.2.2 (by decide)⟩

theorem lookupOpt_eq_none (r : RecD) (c : String) (h : c ∉ r.map Prod.fst) :
    lookupOpt r c = none := by
  induction r with
  | nil => rfl
  | cons kv rest ih =>
      rw [lookupOpt, if_neg, ih]
      · intro hmem
        exact h (List.mem_cons_of_mem _ hmem)
      · intro hk
        exact h (by rw [← hk]; exact List.mem_cons_self _ _)

/-- C6: an LIR merge patch (an `extract_lir_fields` record with its
`'apn'` popped) binds exactly the fixed LIR column set, so applying it
to a matched row leaves every other column — the owner columns in
particular — unchanged (and hence never nulled). -/
theorem lir_merge_frame (f : AttrFeature) (p rest : RecD) (v : Val) (row : Row) (c : String)
    (h1 : extract_lir_fields f = some p) (h2 : popKey p "apn" = some (v, rest)) :
    rest.map Prod.fst = lirUpdateCols ∧
    (c ∉ lirUpdateCols → applyPatch rest row c = row c ∧
      (row c ≠ .vnone → applyPatch rest row c ≠ .vnone)) ∧
    (∀ oc ∈ ownerCols, applyPatch rest row oc = row oc) := by
  have hp : rest.map Prod.fst = lirUpdateCols := by
    unfold extract_lir_fields at h1
    dsimp only at h1
    split at h1
    · exact Option.noConfusion h1
    · have hlp := Option.some.inj h1
      subst hlp
      injection h2 with h2'
      injection h2' with hv hrest
      rw [← hrest]
      rfl
  have frame : ∀ c', c' ∉ lirUpdateCols → applyPatch rest row c' = row c' := by
    intro c' hc'
    unfold applyPatch
    rw [lookupOpt_eq_none rest c' (by rw [hp]; exact hc')]
  refine ⟨hp, fun hc => ⟨frame c hc, ?_⟩, ?_⟩
  · rw [frame c hc]
    exact id
  · intro oc hoc
    refine frame oc ?_
    fin_cases hoc <;> decide

/-- The patch `update_parcel_batch` sends for `afOne`'s record. -/
def patchOne : RecD := (popKey recOne "apn").elim [] Prod.snd

/-- A concrete destination row. -/
def rowOne : Row := fun c => if c = "owner_name" then .vstr "Jane Roe" else .vnone

/-- Witness for C6: the `afOne` patch leaves `owner_name` untouched. -/
theorem lir_merge_frame_witness :
    patchOne.map Prod.fst = lirUpdateCols ∧
    applyPatch patchOne rowOne "owner_name" = rowOne "owner_name" :=
  ⟨(lir_merge_frame afOne recOne patchOne (.vstr "07-123") rowOne "owner_name"
      (by decide) (by decide)).1,
   (lir_merge_frame afOne recOne patchOne (.vstr "07-123") rowOne "owner_name"
      (by decide) (by decide)).2.2 "owner_name" (by decide)⟩

theorem updLoop_spec (env : UpdateEnv) (lrs : List RecD) :
    (updLoop env lrs).1 + (updLoop env lrs).2.1 = lrs.length ∧
    (updLoop env lrs).2.2 = lrs.map stripApn := by
  induction lrs with
  | nil => exact ⟨rfl, rfl⟩
  | cons r rs ih =>
      rw [updLoop]
      dsimp only
      have hsum := ih.1
      refine ⟨?_, ?_⟩
      · cases hpop : popKey r "apn" with
        | none =>
            simp only [hpop, List.length_cons]
            omega
        | some pr =>
            obtain ⟨a, r'⟩ := pr
            simp only [hpop, List.length_cons]
            by_cases hm : env.matched a r'
            · simp only [if_pos hm]
              omega
            · simp only [if_neg hm]
              omega
      · cases hpop : popKey r "apn" with
        | none => simp [hpop, stripApn, ih.2]
        | some pr =>
            obtain ⟨a, r'⟩ := pr
            by_cases hm : env.matched a r'
            · simp [hpop, stripApn, ih.2, hm]
            · simp [hpop, stripApn, ih.2, hm]

theorem lookupOpt_filter_ne (r : RecD) (k : String) :
    lookupOpt (r.filter (fun kv => kv.1 != k)) k = none := by
  induction r with
  | nil => rfl
  | cons kv rest ih =>
      by_cases hk : kv.1 = k
      · rw [List.filter_cons_of_neg (by simp [hk])]
        exact ih
      · rw [List.filter_cons_of_pos (by simp [hk]), lookupOpt, if_neg hk]
        exact ih

theorem hasKey_stripApn (r : RecD) : hasKey (stripApn r) "apn" = false := by
  unfold stripApn
  cases hpop : popKey r "apn" with
  | none =>
      unfold popKey at hpop
      unfold hasKey
      cases hl : lookupOpt r "apn" with
      | none => rfl
      | some v => rw [hl] at hpop; exact Option.noConfusion hpop
  | some pr =>
      obtain ⟨a, r'⟩ := pr
      unfold popKey at hpop
      cases hl : lookupOpt r "apn" with
      | none => rw [hl] at hpop; exact Option.noConfusion hpop
      | some v =>
          rw [hl] at hpop
          injection hpop with hpair
          injection hpair with hv hrest
          dsimp only
          unfold hasKey
          rw [← hrest, lookupOpt_filter_ne]
          rfl

/-- C10: `update_parcel_batch` returns the bare `0` for an empty batch
and for a non-empty batch a `(succeeded, failed)` pair summing to the
batch size; as a side effect the `'apn'` key is popped from every input
record, so no post-state record still carries one. -/
theorem update_parcel_batch_shape (env : UpdateEnv) (lrs : List RecD) :
    update_parcel_batch env [] = (Sum.inl 0, []) ∧
    (lrs ≠ [] → ∃ s fc, (update_parcel_batch env lrs).1 = Sum.inr (s, fc) ∧
      s + fc = lrs.length) ∧
    (update_parcel_batch env lrs).2 = lrs.map stripApn ∧
    (∀ r ∈ (update_parcel_batch env lrs).2, hasKey r "apn" = false) := by
  refine ⟨rfl, ?_, ?_, ?_⟩
  · intro hne
    refine ⟨(updLoop env lrs).1, (updLoop env lrs).2.1, ?_, (updLoop_spec env lrs).1⟩
    unfold update_parcel_batch
    rw [if_neg hne]
  · by_cases hne : lrs = []
    · rw [hne]; rfl
    · unfold update_parcel_batch
      rw [if_neg hne]
      exact (updLoop_spec env lrs).2
  · intro r hr
    by_cases hne : lrs = []
    · rw [hne] at hr; simp [update_parcel_batch] at hr
    · unfold update_parcel_batch at hr
      rw [if_neg hne] at hr
      rw [show ((Sum.inr ((updLoop env lrs).1, (updLoop env lrs).2.1) : ℕ ⊕ ℕ × ℕ),
        (updLoop env lrs).2.2).2 = (updLoop env lrs).2.2 from rfl,
        (updLoop_spec env lrs).2] at hr
      obtain ⟨x, hx, hxr⟩ := List.mem_map.mp hr
      rw [← hxr]
      exact hasKey_stripApn x

/-- An environment where every update call matches a row. -/
def updOkEnv : UpdateEnv := ⟨fun _ _ => true⟩

/-- Witness for C10: a singleton batch yields `Sum.inr` counts summing
to 1, with the apn popped from the record. -/
theorem update_parcel_batch_shape_witness :
    (∃ s fc, (update_parcel_batch updOkEnv [recOne]).1 = Sum.inr (s, fc) ∧ s + fc = 1) ∧
    update_parcel_batch updOkEnv [] = (Sum.inl 0, []) ∧
    (∀ r ∈ (update_parcel_batch updOkEnv [recOne]).2, hasKey r "apn" = false) :=
  ⟨(update_parcel_batch_shape updOkEnv [recOne]).2.1 (by decide),
   (update_parcel_batch_shape updOkEnv [recOne]).1,
   (update_parcel_batch_shape updOkEnv [recOne]).2.2.2⟩

/-- The most recent record of `rs` carrying key `k`, if any. -/
def lastWith (rs : List RecD) (k : Val) : Option RecD :=
  rs.foldl (fun acc r => if recKey r = k then some r else acc) none

theorem lastWith_foldl (rs : List RecD) (k : Val) (init : Option RecD) :
    rs.foldl (fun acc r => if recKey r = k then some r else acc) init =
      match lastWith rs k with
      | some r => some r
      | none => init := by
  induction rs generalizing init with
  | nil => rfl
  | cons r rs ih =>
      rw [List.foldl_cons]
      rw [ih]
      rw [show lastWith (r :: rs) k =
        rs.foldl (fun acc x => if recKey x = k then some x else acc)
          (if recKey r = k then some r else none) from rfl]
      rw [ih]
      cases hlw : lastWith rs k with
      | some x => rfl
      | none =>
          by_cases hr : recKey r = k
          · rw [if_pos hr, if_pos hr]
          · rw [if_neg hr, if_neg hr]

theorem upsertList_apply (t : Table) (rs : List RecD) (k : Val) :
    upsertList t rs k =
      match lastWith rs k with
      | some r => some r
      | none => t k := by
  induction rs generalizing t with
  | nil => rfl
  | cons r rs ih =>
      rw [show upsertList t (r :: rs) k = upsertList (upsertRec t r) rs k from rfl]
      rw [ih]
      rw [show lastWith (r :: rs) k =
        rs.foldl (fun acc x => if recKey x = k then some x else acc)
          (if recKey r = k then some r else none) from rfl]
      rw [lastWith_foldl]
      cases hlw : lastWith rs k with
      | some x => rfl
      | none =>
          unfold upsertRec
          by_cases hr : recKey r = k
          · rw [if_pos hr, if_pos (hr.symm)]
          · rw [if_neg hr, if_neg (fun hk => hr hk.symm)]

theorem upsertList_idem (t : Table) (rs : List RecD) :
    upsertList (upsertList t rs) rs = upsertList t rs := by
  funext k
  rw [upsertList_apply, upsertList_apply]
  cases hlw : lastWith rs k with
  | some r => rfl
  | none => rfl

theorem insertSkipList_isSome_mono (t : Table) (rs : List RecD) (k : Val)
    (h : (t k).isSome = true) : (insertSkipList t rs k).isSome = true := by
  induction rs generalizing t with
  | nil => exact h
  | cons r rs ih =>
      rw [show insertSkipList t (r :: rs) = insertSkipList (insertSkipRec t r) rs from rfl]
      refine ih _ ?_
      unfold insertSkipRec
      split
      · exact h
      · dsimp only
        by_cases hk : k = recKey r
        · rw [if_pos hk]; rfl
        · rw [if_neg hk]; exact h

theorem insertSkipList_mem_isSome (t : Table) (rs : List RecD) (r : RecD)
    (h : r ∈ rs) : (insertSkipList t rs (recKey r)).isSome = true := by
  induction rs generalizing t with
  | nil => exact absurd h (List.not_mem_nil r)
  | cons x xs ih =>
      rw [show insertSkipList t (x :: xs) = insertSkipList (insertSkipRec t x) xs from rfl]
      rcases List.mem_cons.mp h with h1 | h1
      · subst h1
        refine insertSkipList_isSome_mono _ xs _ ?_
        unfold insertSkipRec
        split
        next hsome => exact hsome
        next =>
          dsimp only
          rw [if_pos rfl]
          rfl
      · exact ih _ h1

theorem insertSkipList_of_present (t : Table) (rs : List RecD)
    (h : ∀ r ∈ rs, (t (recKey r)).isSome = true) : insertSkipList t rs = t := by
  induction rs with
  | nil => rfl
  | cons r rs ih =>
      rw [show insertSkipList t (r :: rs) = insertSkipList (insertSkipRec t r) rs from rfl]
      rw [show insertSkipRec t r = t from by
        unfold insertSkipRec
        rw [if_pos (h r (List.mem_cons_self _ _))]]
      exact ih (fun x hx => h x (List.mem_cons_of_mem _ hx))

theorem insertSkipList_idem (t : Table) (rs : List RecD) :
    insertSkipList (insertSkipList t rs) rs = insertSkipList t rs :=
  insertSkipList_of_present _ _ (fun r hr => insertSkipList_mem_isSome t rs r hr)

theorem upsertList_append (t : Table) (a b : List RecD) :
    upsertList t (a ++ b) = upsertList (upsertList t a) b :=
  List.foldl_append _ _ _ _

theorem insertSkipList_append (t : Table) (a b : List RecD) :
    insertSkipList t (a ++ b) = insertSkipList (insertSkipList t a) b :=
  List.foldl_append _ _ _ _

theorem sync_run_state_api_join (t : Table) (pages : List (List Feature)) :
    sync_run_state_api t pages = upsertList t (pages.map buildBatchApi).flatten := by
  induction pages generalizing t with
  | nil => rfl
  | cons p ps ih =>
      rw [show sync_run_state_api t (p :: ps) =
        sync_run_state_api (upsertList t (buildBatchApi p)) ps from rfl]
      rw [ih, List.map_cons, List.flatten_cons, upsertList_append]

theorem sync_run_state_lir_join (t : Table) (pages : List (List Feature)) :
    sync_run_state_lir t pages = insertSkipList t (pages.map buildBatchLir).flatten := by
  induction pages generalizing t with
  | nil => rfl
  | cons p ps ih =>
      rw [show sync_run_state_lir t (p :: ps) =
        sync_run_state_lir (insertSkipList t (buildBatchLir p)) ps from rfl]
      rw [ih, List.map_cons, List.flatten_cons, insertSkipList_append]

/-- C2 (amended): re-running either sync over the same pages leaves the
destination exactly as one run left it — the basic-API writes (upserts
on apn) and the LIR writes (inserts whose duplicate-key failures are
skipped) are both idempotent per natural key. -/
theorem sync_idempotent (t : Table) (pages : List (List Feature)) :
    sync_run_state_api (sync_run_state_api t pages) pages = sync_run_state_api t pages ∧
    sync_run_state_lir (sync_run_state_lir t pages) pages = sync_run_state_lir t pages := by
  constructor
  · rw [sync_run_state_api_join, sync_run_state_api_join]
    exact upsertList_idem _ _
  · rw [sync_run_state_lir_join, sync_run_state_lir_join]
    exact insertSkipList_idem _ _

/-- A destination row predating the runs below, keyed `"A"`. -/
def oldRow : RecD := [("apn", .vstr "A"), ("owner_name", .vstr "Old Owner")]

/-- An incoming record with the same key and different content. -/
def newRow : RecD := [("apn", .vstr "A"), ("owner_name", .vstr "New Owner")]

/-- A destination table already holding `oldRow` at key `"A"`. -/
def preTable : Table := fun k => if k = .vstr "A" then some oldRow else none

/-- Counterexample to C2 as stated: the LIR sync's write is a plain
insert that skips its duplicate-key failure, so on a table whose key
`"A"` is already populated it leaves the old row in place, while an
upsert keyed on apn would have replaced it — not every destination
write is an upsert. -/
theorem lir_write_is_not_upsert :
    insertSkipList preTable [newRow] (.vstr "A") = some oldRow ∧
    upsertList preTable [newRow] (.vstr "A") = some newRow ∧
    insertSkipList preTable [newRow] (.vstr "A") ≠ upsertList preTable [newRow] (.vstr "A") := by
  refine ⟨rfl, rfl, ?_⟩
  intro h
  exact absurd (Option.some.inj h) (by decide)

/-- Witness for C2 at a concrete table and page list. -/
theorem sync_idempotent_witness :
    sync_run_state_api (sync_run_state_api preTable [[featOne]]) [[featOne]] =
      sync_run_state_api preTable [[featOne]] ∧
    sync_run_state_lir (sync_run_state_lir preTable [[featOne]]) [[featOne]] =
      sync_run_state_lir preTable [[featOne]] :=
  sync_idempotent preTable [[featOne]]

theorem fastFallback_count (env : FastEnv) (lrs : List RecD) :
    (fastFallback env lrs).1 = lrs.countP (fun r =>
      match popKey r "apn" with
      | some (a, r') => env.updOk a r'
      | none => false) := by
  induction lrs with
  | nil => rfl
  | cons r rs ih =>
      rw [fastFallback]
      cases hpop : popKey r "apn" with
      | none => simp [List.countP_cons, hpop, ih]
      | some pr =>
          obtain ⟨a, r'⟩ := pr
          by_cases hm : env.updOk a r'
          · simp [List.countP_cons, hpop, ih, hm]
          · simp [List.countP_cons, hpop, ih, hm]

/-- C1 (amended): on a batch-level failure whose message is not
classified as a schema error (lowercased message containing
`'could not find'` or `'column'`), `upload_batch` falls back to
one-at-a-time upserts and reports the number of individually valid
records; `update_parcel_batch_fast` falls back on every batch failure;
and the run's fetch schedule never depends on upload outcomes, so the
remaining batches are still processed. On a schema-classified failure,
`upload_batch` instead returns 0 with no fallback. -/
theorem batch_failure_fallback (envU : UploadEnv) (envF : FastEnv)
    (records lrs : List RecD) (msg msg2 : String)
    (h1 : envU.batchResult records = some msg)
    (h2 : strContains (strLower msg) "could not find" = false)
    (h3 : strContains (strLower msg) "column" = false)
    (h4 : records ≠ [])
    (h5 : lrs ≠ []) (h6 : envF.batchResult lrs = some msg2) :
    upload_batch envU records = records.countP (fun r => envU.singleOk r) ∧
    (update_parcel_batch_fast envF lrs).1 = lrs.countP (fun r =>
      match popKey r "apn" with
      | some (a, r') => envF.updOk a r'
      | none => false) ∧
    (∀ (e₁ e₂ : ApiSyncEnv) (limit : Option ℕ) (cf : Bool),
      e₁.count = e₂.count → e₁.src = e₂.src → e₁.clear = e₂.clear →
      (sync_parcels e₁ limit cf).pages = (sync_parcels e₂ limit cf).pages ∧
      (sync_parcels e₁ limit cf).aborted = (sync_parcels e₂ limit cf).aborted) := by
  refine ⟨?_, ?_, ?_⟩
  · unfold upload_batch
    rw [if_neg h4, h1]
    simp [h2, h3]
  · unfold update_parcel_batch_fast
    rw [if_neg h5, h6]
    exact fastFallback_count envF lrs
  · intro e₁ e₂ limit cf hc hs hcl
    by_cases hcond : cf ∧ clear_existing_parcels e₂.clear = false
    · constructor <;> simp [sync_parcels, hc, hs, hcl, hcond]
    · constructor <;> simp [sync_parcels, hc, hs, hcl, hcond]

/-- Ten records of which only the last lacks a usable apn. -/
def tenRecords : List RecD :=
  [[("apn", .vstr "1")], [("apn", .vstr "2")], [("apn", .vstr "3")], [("apn", .vstr "4")],
   [("apn", .vstr "5")], [("apn", .vstr "6")], [("apn", .vstr "7")], [("apn", .vstr "8")],
   [("apn", .vstr "9")], [("oops", .vstr "malformed")]]

/-- A store whose batch-level upsert fails with a schema-cache error and
whose individual upserts succeed exactly on records carrying an apn. -/
def schemaFailEnv : UploadEnv :=
  ⟨fun _ => some "Could not find the 'bldg_sqft' column of 'parcels' in the schema cache",
   fun r => truthy (recKey r)⟩

/-- Counterexample to C1 as stated: on a schema-classified batch failure
`upload_batch` returns 0 without attempting the one-by-one fallback,
even though 9 of the 10 records are individually valid. -/
theorem upload_batch_schema_no_fallback :
    tenRecords.length = 10 ∧
    tenRecords.countP (fun r => schemaFailEnv.singleOk r) = 9 ∧
    upload_batch schemaFailEnv tenRecords = 0 := by decide

/-- A store whose batch upsert fails with a non-schema error. -/
def timeoutEnv : UploadEnv :=
  ⟨fun _ => some "Connection timed out", fun r => truthy (recKey r)⟩

/-- The fast-update analogue of `timeoutEnv`. -/
def timeoutFastEnv : FastEnv :=
  ⟨fun _ => some "Connection timed out", fun _ _ => true⟩

/-- Witness for C1: the 10-record batch with one malformed record
reports 9 succeeded through the fallback path. -/
theorem batch_failure_fallback_witness :
    upload_batch timeoutEnv tenRecords = 9 ∧
    (update_parcel_batch_fast timeoutFastEnv [recOne]).1 = 1 := by
  have h := batch_failure_fallback timeoutEnv timeoutFastEnv tenRecords [recOne]
    "Connection timed out" "Connection timed out" rfl (by decide) (by decide)
    (by decide) (by decide) rfl
  constructor
  · rw [h.1]; decide
  · rw [h.2.1]; decide

/-- C5 (amended): when the truncate RPC fails with a `'could not find'`
message, the LIR sync's clear warns about the slow path, falls back to
the row-by-row delete, reports success, and its run proceeds to fetch
and upload; the basic API sync's clear has no fallback at all — it
reports failure and its run aborts. -/
theorem clear_fallback (env : ClearEnv) (lenv : LirSyncEnv) (aenv : ApiSyncEnv)
    (limit : Option ℕ) (msg : String)
    (h1 : env.truncateErr = some msg)
    (h2 : strContains (strLower msg) "could not find" = true)
    (h3 : env.deleteErr = none)
    (h4 : lenv.clear = env) (h5 : aenv.clear = env) :
    clear_existing_parcels_lir env = ⟨true, true⟩ ∧
    (sync_parcels_lir lenv limit true).aborted = false ∧
    (sync_parcels_lir lenv limit true).warnedSlow = true ∧
    (sync_parcels_lir lenv limit true).pages =
      fetchPages lenv.src 1000 (effTotal lenv.count limit) ∧
    clear_existing_parcels env = false ∧
    (sync_parcels aenv limit true).aborted = true ∧
    (sync_parcels aenv limit true).pages = [] := by
  have hco : clear_existing_parcels_lir env = ⟨true, true⟩ := by
    unfold clear_existing_parcels_lir
    rw [h1]
    dsimp only
    rw [if_pos h2, h3]
    rfl
  have hcl : clear_existing_parcels env = false := by
    unfold clear_existing_parcels
    rw [h1]
    rfl
  refine ⟨hco, ?_, ?_, ?_, hcl, ?_, ?_⟩
  · simp [sync_parcels_lir, h4, hco]
  · simp [sync_parcels_lir, h4, hco]
  · simp [sync_parcels_lir, h4, hco]
  · simp [sync_parcels, h5, hcl]
  · simp [sync_parcels, h5, hcl]

/-- A clear environment whose truncate RPC is missing and whose delete
succeeds. -/
def truncMissingEnv : ClearEnv :=
  ⟨some "Could not find the function public.truncate_parcels in the schema cache", none⟩

/-- An upload environment that accepts everything. -/
def okUpload : UploadEnv := ⟨fun _ => none, fun _ => true⟩

/-- A basic-API sync environment with a missing truncate RPC and a
non-empty source. -/
def apiEnvNoTrunc : ApiSyncEnv := ⟨3, [featOne, featOne, featOne], truncMissingEnv, okUpload⟩

/-- Counterexample to C5 as stated: in `sync_parcels_from_utah_api.py` a
requested clear whose truncate RPC is unavailable does not fall back to
a row-by-row delete — the clear reports failure and the run aborts
before fetching or uploading anything. -/
theorem clear_no_fallback_in_api_sync :
    clear_existing_parcels truncMissingEnv = false ∧
    (sync_parcels apiEnvNoTrunc none true).aborted = true ∧
    (sync_parcels apiEnvNoTrunc none true).pages = [] ∧
    (sync_parcels apiEnvNoTrunc none true).totalUploaded = 0 := by decide

/-- An LIR sync environment with the same missing truncate RPC. -/
def lirEnvFallback : LirSyncEnv := ⟨1, [featOne], truncMissingEnv, ⟨fun _ => none⟩⟩

/-- Witness for C5: the LIR run falls back, warns, and proceeds. -/
theorem clear_fallback_witness :
    clear_existing_parcels_lir truncMissingEnv = ⟨true, true⟩ ∧
    (sync_parcels_lir lirEnvFallback none true).aborted = false ∧
    (sync_parcels_lir lirEnvFallback none true).warnedSlow = true := by
  have h := clear_fallback truncMissingEnv lirEnvFallback apiEnvNoTrunc none
    "Could not find the function public.truncate_parcels in the schema cache"
    rfl (by decide) rfl rfl rfl
  exact ⟨h.1, h.2.1, h.2.2.1⟩

/-- A clear environment in which nothing fails. -/
def noClearEnv : ClearEnv := ⟨none, none⟩

/-- A 250-record source for the pagination scenario. -/
def apiEnv250 : ApiSyncEnv := ⟨250, List.replicate 250 blankFeature, noClearEnv, okUpload⟩

set_option maxRecDepth 40000 in
/-- C3: the fetch schedule matches the claim — three fetches of 100,
100 and 50 records at page size 100, and only two fetches under limit
120 — but the limit caps fetch iterations only: every record of a
fetched page is processed, so limit 120 processes 200 records at page
size 100, and the script itself (page size hard-wired to 1000)
processes all 250, exceeding the limit its docstring promises to
enforce. -/
theorem limit_overrun_at_page_boundary :
    ((fetchPages (List.replicate 250 blankFeature) 100 (effTotal 250 none)).map List.length)
      = [100, 100, 50] ∧
    (fetchPages (List.replicate 250 blankFeature) 100 (effTotal 250 (some 120))).length = 2 ∧
    ((fetchPages (List.replicate 250 blankFeature) 100 (effTotal 250 (some 120))).map
      List.length).sum = 200 ∧
    (sync_parcels apiEnv250 (some 120) false).totalProcessed = 250 ∧
    ¬(200 ≤ 120) ∧ ¬(250 ≤ 120) := by decide

end GIS
